import Mathlib

/-!
Shallow embedding of `src/daemon/mdns_client.cpp` (the Avahi-based mDNS
client of the AES67 linux daemon) and proofs of its specification claims.

Modelling choices:
* A `std::future<void>` dispatched by the resolve callback is a `PendingTask`
  carrying its captured data (`name`, `domain`, `addr`, `portStr`), a `valid`
  flag (`future::valid()`) and a `completed` flag (the async work has run to
  completion, so `wait_for(0ms)` returns `future_status::ready` and `wait()`
  returns immediately).
* `sources_res_` is the `List PendingTask` in traversal order;
  `std::list::remove_if` is `removeIf` (keep the elements the predicate
  rejects, in order).
* Side effects (logging, dispatching, waiting, freeing the Avahi resolver,
  stopping the poll loop) are recorded as explicit action traces.
* Avahi allocations performed by `init` are modelled by a deterministic
  environment `InitEnv` giving the result of `avahi_threaded_poll_new` and
  `avahi_client_new` (`none` = the C call returned NULL).
-/

namespace MDNS

/-- One entry of the `sources_res_` list: a `std::future<void>` produced by
`std::async` in the resolve callback, together with the values the lambda
captured. `valid` is `future::valid()`; `completed` means the asynchronous
describe work has finished. -/
structure PendingTask where
  valid : Bool
  completed : Bool
  name : String
  domain : String
  addr : String
  portStr : String
deriving DecidableEq

/-- `std::list::remove_if pred`: remove every element on which `pred` is
true, keeping the others in order. -/
def removeIf (p : α → Bool) (l : List α) : List α :=
  l.filter (fun x => !(p x))

/-- `result.wait_for(std::chrono::milliseconds(0)) == future_status::ready`:
true exactly when the task has already completed. -/
def wait_for_zero (t : PendingTask) : Bool :=
  t.completed

/-- The predicate of the `remove_if` in `MDNSClient::process_results`:
an invalid future is removed; a ready future has its result retrieved
(`result.get()`, a no-op for `future<void>` beyond invalidation) and is
removed; an in-flight future is kept. -/
def reap_pred (t : PendingTask) : Bool :=
  if !t.valid then true
  else if wait_for_zero t then true
  else false

/-- `MDNSClient::process_results`: under the lock, remove all invalid or
completed futures from `sources_res_`. -/
def process_results (l : List PendingTask) : List PendingTask :=
  removeIf reap_pred l

/-- The state of a task after `wait()` has returned: the work has finished. -/
def markDone (t : PendingTask) : PendingTask :=
  { t with completed := true }

/-- The `remove_if` of `MDNSClient::terminate`: every entry is removed; a
valid future is first waited on (blocking until the task finishes).  Returns
the ordered list of waited-on tasks (each in its post-wait state) and the
remaining list (always empty, since the predicate always returns true). -/
def drain : List PendingTask → List PendingTask × List PendingTask
  | [] => ([], [])
  | t :: ts =>
    let r := drain ts
    (if t.valid then markDone t :: r.1 else r.1, r.2)

/-- The client state touched by the claims: `running_`, the poll handle
`poll_`, the client handle `client_`, and the futures list `sources_res_`.
Handles are `Option Nat` (the `Nat` stands in for the opaque pointer,
`none` for NULL/empty). -/
structure MDNSState where
  running : Bool
  poll : Option Nat
  client : Option Nat
  sources_res : List PendingTask
deriving DecidableEq

/-- Deterministic environment for `init`: results of the two Avahi
allocation calls (`none` models a NULL return). -/
structure InitEnv where
  newPoll : Option Nat
  newClient : Option Nat
deriving DecidableEq

/-- `MDNSClient::init`: return true at once if already running; otherwise
store the result of `avahi_threaded_poll_new` into `poll_` (failing with
`false` if NULL), then store the result of `avahi_client_new` into `client_`
(failing with `false` if NULL), then start the poll thread (return value
ignored by the source) and set `running_ = true`. -/
def init (env : InitEnv) (s : MDNSState) : MDNSState × Bool :=
  if s.running then (s, true)
  else
    match env.newPoll with
    | none => ({ s with poll := none }, false)
    | some p =>
      match env.newClient with
      | none => ({ s with poll := some p, client := none }, false)
      | some c => ({ s with poll := some p, client := some c, running := true }, true)

/-- Observable actions of `MDNSClient::terminate`, in program order. -/
inductive TAct where
  | setRunningFalse
  | logWaitCount (n : Nat)
  | wait (t : PendingTask)
  | stopPoll
  | releasePoll
deriving DecidableEq

/-- Modelled from the spec: the poll resource is owned by a smart handle
declared in the class header (which is not among the sources); per the spec
the lifecycle "stops the event loop and releases its resource", so the
teardown tail of `terminate` is modelled as the `avahi_threaded_poll_stop`
call of the source followed by the owner's release of the poll handle. -/
def teardownActions : List TAct :=
  [TAct.stopPoll, TAct.releasePoll]

/-- `MDNSClient::terminate`: if running, set `running_ = false`, log the
number of pending RTSP clients, drain `sources_res_` (waiting on every valid
future, removing every entry), then stop the poll loop; always returns
true. Not running: nothing happens. -/
def terminate (s : MDNSState) : MDNSState × Bool × List TAct :=
  if s.running then
    let d := drain s.sources_res
    ({ s with running := false, sources_res := d.2 }, true,
      TAct.setRunningFalse :: TAct.logWaitCount s.sources_res.length ::
        (d.1.map TAct.wait ++ teardownActions))
  else (s, true, [])

/-- Spec classification of a resolved address string. -/
inductive Classification where
  | eligible
  | ineligible
deriving DecidableEq

/-- Parser state of the dotted-decimal IPv4 parser (`inet_pton` with
`AF_INET`, which is what `boost::asio::ip::address_v4::from_string` uses on
this platform): number of octets seen so far, value of the octet being
accumulated, and whether a digit of the current octet has been seen. -/
structure Pton4State where
  octets : Nat
  cur : Nat
  sawDigit : Bool
deriving DecidableEq

/-- One character step of `inet_pton4`: a digit extends the current octet
(rejecting leading zeros and values above 255, and counting a new octet on
its first digit, with at most four octets); a dot ends a non-empty octet
when fewer than four are complete; anything else rejects the string. -/
def pton4Step (acc : Option Pton4State) (ch : Char) : Option Pton4State :=
  match acc with
  | none => none
  | some st =>
    if ch.isDigit then
      let v := st.cur * 10 + (ch.toNat - 48)
      if st.sawDigit && st.cur == 0 then none
      else if v > 255 then none
      else if st.sawDigit then some { st with cur := v }
      else if st.octets + 1 > 4 then none
      else some { octets := st.octets + 1, cur := v, sawDigit := true }
    else if ch == '.' && st.sawDigit then
      if st.octets == 4 then none
      else some { octets := st.octets, cur := 0, sawDigit := false }
    else none

/-- `inet_pton(AF_INET, s, ·) == 1`: the whole string is consumed without
rejection and exactly four octets were read. -/
def inet_pton4 (s : String) : Bool :=
  match s.data.foldl pton4Step (some ⟨0, 0, false⟩) with
  | none => false
  | some st => st.octets == 4

/-- The address gate of the resolve callback:
`boost::asio::ip::address_v4::from_string(addr, ec); if (!ec) ...` —
eligible exactly when the text parses as an IPv4 address. -/
def classify (addr : String) : Classification :=
  if inet_pton4 addr then Classification.eligible else Classification.ineligible

/-- Canonical decimal rendering of one octet value (no leading zeros),
as `avahi_address_snprint` produces for IPv4 addresses. -/
def octetChars (n : Nat) : List Char :=
  if n < 10 then [Nat.digitChar n]
  else if n < 100 then [Nat.digitChar (n / 10), Nat.digitChar (n % 10)]
  else [Nat.digitChar (n / 100), Nat.digitChar (n / 10 % 10), Nat.digitChar (n % 10)]

/-- The dotted-decimal string `a.b.c.d`. -/
def ipv4String (a b c d : Nat) : String :=
  String.mk (octetChars a ++ '.' :: (octetChars b ++ '.' :: (octetChars c ++ '.' :: octetChars d)))

/-- The two events the Avahi resolver callback distinguishes
(`AVAHI_RESOLVER_FAILURE` / `AVAHI_RESOLVER_FOUND`), the latter with the
resolved service data (`addr` is the `avahi_address_snprint` text). -/
inductive ResolveEvent where
  | failure
  | found (name domain hostName addr : String) (port : Nat)
deriving DecidableEq

/-- Observable actions of `MDNSClient::resolve_callback`, in program
order. -/
inductive RAct where
  | logError
  | logDebug
  | dispatch (t : PendingTask)
  | freeResolver
deriving DecidableEq

/-- The future the callback appends to `sources_res_`: freshly dispatched
(valid, not yet completed), capturing name, domain, address text and the
decimal string of the port by value. -/
def mkTask (name domain addr portStr : String) : PendingTask :=
  { valid := true, completed := false, name := name, domain := domain,
    addr := addr, portStr := portStr }

/-- `MDNSClient::resolve_callback`: on FAILURE, log the error; on FOUND, log
the service and its info, and if the address text parses as IPv4, append an
async describe task to `sources_res_` under the lock; in every case free the
service resolver at the end. -/
def resolve_callback (ev : ResolveEvent) (l : List PendingTask) :
    List PendingTask × List RAct :=
  match ev with
  | ResolveEvent.failure => (l, [RAct.logError, RAct.freeResolver])
  | ResolveEvent.found name domain _hostName addr port =>
    if classify addr = Classification.eligible then
      (l ++ [mkTask name domain addr (toString port)],
        [RAct.logDebug, RAct.logDebug,
         RAct.dispatch (mkTask name domain addr (toString port)), RAct.freeResolver])
    else
      (l, [RAct.logDebug, RAct.logDebug, RAct.freeResolver])

/-- Observable actions of the dispatched describe task's body. -/
inductive CAct where
  | describeRequest (path addr portStr : String)
  | onNewSource (name domain desc : String)
deriving DecidableEq

/-- The body of the lambda run by `std::async`: perform
`RTSPClient::describe("/by-name/" + name, addr, portStr)` and, only if it
reports success, invoke `on_new_rtsp_source(name, domain, description)`.
The describe collaborator is an oracle parameter. -/
def run_describe_task (describe : String → String → String → Bool × String)
    (name domain addr portStr : String) : List CAct :=
  let res := describe ("/by-name/" ++ name) addr portStr
  CAct.describeRequest ("/by-name/" ++ name) addr portStr ::
    (if res.1 then [CAct.onNewSource name domain res.2] else [])

/-! ### Helper lemmas -/

theorem pton4Step_none (ch : Char) : pton4Step none ch = none := rfl

theorem foldl_pton4_none (l : List Char) : l.foldl pton4Step none = none := by
  induction l with
  | nil => rfl
  | cons c cs ih => simpa [pton4Step] using ih

theorem pton4Step_junk {ch : Char} (h1 : ch.isDigit = false) (h2 : (ch == '.') = false)
    (acc : Option Pton4State) : pton4Step acc ch = none := by
  cases acc with
  | none => rfl
  | some st => simp [pton4Step, h1, h2]

theorem digitChar_isDigit {d : Nat} (h : d < 10) : (Nat.digitChar d).isDigit = true := by
  interval_cases d <;> decide

theorem digitChar_toNat {d : Nat} (h : d < 10) : (Nat.digitChar d).toNat - 48 = d := by
  interval_cases d <;> decide

theorem pton4Step_digit_first {k d : Nat} (hk : k < 4) (hd : d < 10) :
    pton4Step (some ⟨k, 0, false⟩) (Nat.digitChar d) = some ⟨k + 1, d, true⟩ := by
  have h1 := digitChar_isDigit hd
  have h2 := digitChar_toNat hd
  have hk4 : ¬(k + 1 > 4) := by omega
  have hv : ¬(0 * 10 + d > 255) := by omega
  simp [pton4Step, h1, h2, hk4, hv]
  omega

theorem pton4Step_digit_next {k c d : Nat} (hd : d < 10) (hc : 0 < c)
    (hv : c * 10 + d ≤ 255) :
    pton4Step (some ⟨k, c, true⟩) (Nat.digitChar d) = some ⟨k, c * 10 + d, true⟩ := by
  have h1 := digitChar_isDigit hd
  have h2 := digitChar_toNat hd
  have hc' : ¬(c == 0) = true := by simp; omega
  have hv' : ¬(c * 10 + d > 255) := by omega
  simp [pton4Step, h1, h2, hv']
  omega

theorem pton4Step_dot {k c : Nat} (hk : k < 4) :
    pton4Step (some ⟨k, c, true⟩) '.' = some ⟨k, 0, false⟩ := by
  have hk4 : ¬(k == 4) = true := by simp; omega
  simp [pton4Step, hk4]

theorem foldl_octetChars {k n : Nat} (hk : k < 4) (hn : n ≤ 255) :
    (octetChars n).foldl pton4Step (some ⟨k, 0, false⟩) = some ⟨k + 1, n, true⟩ := by
  by_cases h10 : n < 10
  · simp only [octetChars, if_pos h10, List.foldl_cons, List.foldl_nil]
    exact pton4Step_digit_first hk h10
  · by_cases h100 : n < 100
    · simp only [octetChars, if_neg h10, if_pos h100, List.foldl_cons, List.foldl_nil]
      rw [pton4Step_digit_first hk (by omega)]
      rw [pton4Step_digit_next (by omega) (by omega) (by omega)]
      have e : n / 10 * 10 + n % 10 = n := by omega
      rw [e]
    · simp only [octetChars, if_neg h10, if_neg h100, List.foldl_cons, List.foldl_nil]
      rw [pton4Step_digit_first hk (by omega)]
      rw [pton4Step_digit_next (by omega) (by omega) (by omega)]
      have e1 : n / 100 * 10 + n / 10 % 10 = n / 10 := by omega
      rw [e1]
      rw [pton4Step_digit_next (by omega) (by omega) (by omega)]
      have e2 : n / 10 * 10 + n % 10 = n := by omega
      rw [e2]

theorem inet_pton4_ipv4String {a b c d : Nat}
    (ha : a ≤ 255) (hb : b ≤ 255) (hc : c ≤ 255) (hd : d ≤ 255) :
    inet_pton4 (ipv4String a b c d) = true := by
  have key : (octetChars a ++ '.' :: (octetChars b ++ '.' :: (octetChars c ++
      '.' :: octetChars d))).foldl pton4Step (some ⟨0, 0, false⟩) = some ⟨4, d, true⟩ := by
    rw [List.foldl_append, @foldl_octetChars 0 a (by omega) ha]
    rw [List.foldl_cons, @pton4Step_dot (0 + 1) a (by omega)]
    rw [List.foldl_append, @foldl_octetChars (0 + 1) b (by omega) hb]
    rw [List.foldl_cons, @pton4Step_dot (0 + 1 + 1) b (by omega)]
    rw [List.foldl_append, @foldl_octetChars (0 + 1 + 1) c (by omega) hc]
    rw [List.foldl_cons, @pton4Step_dot (0 + 1 + 1 + 1) c (by omega)]
    exact @foldl_octetChars (0 + 1 + 1 + 1) d (by omega) hd
  unfold inet_pton4 ipv4String
  rw [show (String.mk (octetChars a ++ '.' :: (octetChars b ++ '.' :: (octetChars c ++
      '.' :: octetChars d)))).data = octetChars a ++ '.' :: (octetChars b ++ '.' ::
      (octetChars c ++ '.' :: octetChars d)) from rfl]
  rw [key]
  rfl

theorem inet_pton4_colon {s : String} (h : ':' ∈ s.data) : inet_pton4 s = false := by
  obtain ⟨l1, l2, hs⟩ := List.append_of_mem h
  unfold inet_pton4
  rw [hs, List.foldl_append, List.foldl_cons]
  rw [@pton4Step_junk ':' (by decide) (by decide)]
  rw [foldl_pton4_none]

theorem drain_eq (l : List PendingTask) :
    drain l = ((l.filter (fun t => t.valid)).map markDone, []) := by
  induction l with
  | nil => rfl
  | cons t ts ih =>
    by_cases h : t.valid
    · simp [drain, ih, h, List.filter_cons]
    · simp [drain, ih, h, List.filter_cons]

/-! ### Claim theorems -/

/-- Claim C1: the blocking drain performed during `terminate` waits on and
retrieves every previously dispatched task exactly once (the waited-on list
is exactly the valid entries of the set, in order, each now finished), the
set is emptied, it completes immediately on an empty set, and every task
produced by dispatch is valid (so none is skipped). -/
theorem claim_C1 (l : List PendingTask) :
    (drain l).1 = (l.filter (fun t => t.valid)).map markDone ∧
    (drain l).2 = [] ∧
    drain ([] : List PendingTask) = ([], []) ∧
    ∀ name domain addr portStr, (mkTask name domain addr portStr).valid = true := by
  refine ⟨?_, ?_, rfl, fun _ _ _ _ => rfl⟩ <;> rw [drain_eq]

/-- Claim C2: any address text containing a colon (every textual IPv6
address) is classified ineligible; any text the IPv4 parser rejects is
classified ineligible; on an ineligible address the resolve callback leaves
the pending-task set unchanged and dispatches nothing; and every
syntactically valid dotted-decimal IPv4 address is classified eligible. -/
theorem claim_C2 :
    (∀ addr : String, ':' ∈ addr.data → classify addr = Classification.ineligible) ∧
    (∀ addr : String, inet_pton4 addr = false → classify addr = Classification.ineligible) ∧
    (∀ name domain hostName addr port (l : List PendingTask),
        classify addr = Classification.ineligible →
          (resolve_callback (ResolveEvent.found name domain hostName addr port) l).1 = l ∧
          ∀ t, RAct.dispatch t ∉
            (resolve_callback (ResolveEvent.found name domain hostName addr port) l).2) ∧
    (∀ a b c d : Nat, a ≤ 255 → b ≤ 255 → c ≤ 255 → d ≤ 255 →
        classify (ipv4String a b c d) = Classification.eligible) := by
  refine ⟨?_, ?_, ?_, ?_⟩
  · intro addr h
    simp [classify, inet_pton4_colon h]
  · intro addr h
    simp [classify, h]
  · intro name domain hostName addr port l h
    have h' : ¬(classify addr = Classification.eligible) := by
      rw [h]; exact fun hc => Classification.noConfusion hc
    constructor
    · simp [resolve_callback, h']
    · intro t
      simp [resolve_callback, h']
  · intro a b c d ha hb hc hd
    simp [classify, inet_pton4_ipv4String ha hb hc hd]

/-- Claim C2 witness: an IPv6 address is ineligible and a concrete
dotted-decimal IPv4 address is eligible. -/
theorem claim_C2_witness :
    classify "fe80::1" = Classification.ineligible ∧
    classify (ipv4String 192 168 0 1) = Classification.eligible :=
  ⟨claim_C2.1 "fe80::1" (by decide),
   claim_C2.2.2.2 192 168 0 1 (by decide) (by decide) (by decide) (by decide)⟩

/-- Claim C3: on an eligible address the resolve callback appends exactly one
task capturing the name, domain, address and the decimal string of the port;
the task body performs exactly one describe request, at the path
`"/by-name/" + name`, the captured address and port string; on describe
success it invokes `onNewSource(name, domain, description)` exactly once, and
on failure it invokes no callback at all. -/
theorem claim_C3 :
    (∀ name domain hostName addr port (l : List PendingTask),
        classify addr = Classification.eligible →
          (resolve_callback (ResolveEvent.found name domain hostName addr port) l).1
            = l ++ [mkTask name domain addr (toString port)]) ∧
    (∀ (describe : String → String → String → Bool × String) name domain addr portStr,
        (describe ("/by-name/" ++ name) addr portStr).1 = true →
          run_describe_task describe name domain addr portStr
            = [CAct.describeRequest ("/by-name/" ++ name) addr portStr,
               CAct.onNewSource name domain (describe ("/by-name/" ++ name) addr portStr).2]) ∧
    (∀ (describe : String → String → String → Bool × String) name domain addr portStr,
        (describe ("/by-name/" ++ name) addr portStr).1 = false →
          run_describe_task describe name domain addr portStr
            = [CAct.describeRequest ("/by-name/" ++ name) addr portStr]) := by
  refine ⟨?_, ?_, ?_⟩
  · intro name domain hostName addr port l h
    simp [resolve_callback, h]
  · intro describe name domain addr portStr h
    simp [run_describe_task, h]
  · intro describe name domain addr portStr h
    simp [run_describe_task, h]

/-- Claim C3 witness: a concrete successful describe yields exactly the
request at the constructed path and one `onNewSource` invocation. -/
theorem claim_C3_witness :
    run_describe_task (fun _ _ _ => (true, "v=0")) "cam1" "local" "192.168.1.2" "554"
      = [CAct.describeRequest ("/by-name/" ++ "cam1") "192.168.1.2" "554",
         CAct.onNewSource "cam1" "local" "v=0"] :=
  claim_C3.2.1 (fun _ _ _ => (true, "v=0")) "cam1" "local" "192.168.1.2" "554" rfl

/-- Claim C4: the non-blocking reap removes exactly the invalid or completed
tasks and keeps every in-flight (valid, not yet completed) task untouched, in
order and with multiplicity. -/
theorem claim_C4 (l : List PendingTask) :
    process_results l = l.filter (fun t => t.valid && !t.completed) := by
  have h : ∀ t : PendingTask, (!(reap_pred t)) = (t.valid && !t.completed) := by
    intro t
    cases ht : t.valid <;> cases hc : t.completed <;>
      simp [reap_pred, wait_for_zero, ht, hc]
  unfold process_results removeIf
  simp only [h]

/-- Claim C5: `init` is idempotent — if already running it returns success
immediately without changing any state, and running `init` twice in a row
yields the same state and result as running it once. -/
theorem claim_C5 (env : InitEnv) (s : MDNSState) :
    (s.running = true → init env s = (s, true)) ∧
    init env (init env s).1 = init env s := by
  constructor
  · intro h
    simp [init, h]
  · by_cases h : s.running
    · simp [init, h]
    · cases hp : env.newPoll with
      | none => simp [init, h, hp]
      | some p =>
        cases hc : env.newClient with
        | none => simp [init, h, hp, hc]
        | some c => simp [init, h, hp, hc]

/-- Claim C5 witness: on a concrete running state, `init` returns success and
changes nothing. -/
theorem claim_C5_witness :
    init ⟨none, none⟩ ⟨true, none, none, []⟩ = (⟨true, none, none, []⟩, true) :=
  (claim_C5 ⟨none, none⟩ ⟨true, none, none, []⟩).1 rfl

/-- Claim C6: a `terminate` call made while running performs, in order:
first the run-state is set to false, then (after the log of the pending
count) the blocking waits of the drain, and finally the stop of the event
loop followed by the release of its resource; afterwards the run-state is
false. -/
theorem claim_C6 (s : MDNSState) (h : s.running = true) :
    (terminate s).2.2 =
      TAct.setRunningFalse :: TAct.logWaitCount s.sources_res.length ::
        (((s.sources_res.filter (fun t => t.valid)).map markDone).map TAct.wait
          ++ [TAct.stopPoll, TAct.releasePoll]) ∧
    (terminate s).1.running = false := by
  constructor
  · simp [terminate, h, drain_eq, teardownActions]
  · simp [terminate, h]

/-- Claim C6 witness: the ordered action trace of `terminate` on a concrete
running state with one pending task. -/
theorem claim_C6_witness :
    (terminate ⟨true, some 1, some 2, [mkTask "cam1" "local" "192.168.1.2" "554"]⟩).2.2 =
      TAct.setRunningFalse :: TAct.logWaitCount 1 ::
        ([TAct.wait (markDone (mkTask "cam1" "local" "192.168.1.2" "554"))]
          ++ [TAct.stopPoll, TAct.releasePoll]) ∧
    (terminate ⟨true, some 1, some 2, [mkTask "cam1" "local" "192.168.1.2" "554"]⟩).1.running
      = false :=
  claim_C6 ⟨true, some 1, some 2, [mkTask "cam1" "local" "192.168.1.2" "554"]⟩ rfl

/-- Claim C7 counterexample: when the poll object is created but the client
handle cannot be (a concrete failing environment), `init` returns failure but
the partially acquired poll resource is still held by `poll_` when `init`
returns — it is not released, refuting the claim as stated. -/
theorem claim_C7_counterexample :
    (init ⟨some 1, none⟩ ⟨false, none, none, []⟩).2 = false ∧
    (init ⟨some 1, none⟩ ⟨false, none, none, []⟩).1.poll ≠ none := by
  decide

/-- Claim C7 (amended): if any resource acquisition during `init` fails,
`init` returns failure and the run-state remains false; resources acquired
before the failure point remain held by their owning handles (the poll
handle holds whatever the poll allocation returned; the client handle is
nulled only when the poll step succeeded), rather than being released before
`init` returns. -/
theorem claim_C7 (env : InitEnv) (s : MDNSState) (h : s.running = false)
    (hfail : env.newPoll = none ∨ env.newClient = none) :
    (init env s).2 = false ∧
    (init env s).1.running = false ∧
    (init env s).1.poll = env.newPoll ∧
    (init env s).1.sources_res = s.sources_res ∧
    (env.newPoll = none → (init env s).1.client = s.client) ∧
    (env.newPoll ≠ none → (init env s).1.client = env.newClient) := by
  cases hp : env.newPoll with
  | none => simp [init, h, hp]
  | some p =>
    cases hc : env.newClient with
    | none => simp [init, h, hp, hc]
    | some c =>
      rcases hfail with h1 | h1
      · exact absurd hp (by simp [h1])
      · exact absurd hc (by simp [h1])

/-- Claim C7 witness: a concrete failed `init` (client allocation fails)
returns failure, leaves the run-state false, and keeps the acquired poll
handle. -/
theorem claim_C7_witness :
    (init ⟨some 5, none⟩ ⟨false, none, none, []⟩).2 = false ∧
    (init ⟨some 5, none⟩ ⟨false, none, none, []⟩).1.running = false ∧
    (init ⟨some 5, none⟩ ⟨false, none, none, []⟩).1.poll = some 5 :=
  ⟨(claim_C7 ⟨some 5, none⟩ ⟨false, none, none, []⟩ rfl (Or.inr rfl)).1,
   (claim_C7 ⟨some 5, none⟩ ⟨false, none, none, []⟩ rfl (Or.inr rfl)).2.1,
   (claim_C7 ⟨some 5, none⟩ ⟨false, none, none, []⟩ rfl (Or.inr rfl)).2.2.1⟩

/-- Claim C8: calling `terminate` while not running is a no-op — it performs
no action at all, touches neither the pending-task set nor the event loop,
leaves the state unchanged and returns true. -/
theorem claim_C8 (s : MDNSState) (h : s.running = false) :
    terminate s = (s, true, []) := by
  simp [terminate, h]

/-- Claim C8 witness: `terminate` on a concrete never-initialized state does
nothing. -/
theorem claim_C8_witness :
    terminate ⟨false, none, none, []⟩ = (⟨false, none, none, []⟩, true, []) :=
  claim_C8 ⟨false, none, none, []⟩ rfl

/-- Claim C9: for every resolve event and every pending-task set, the
resolver handle is freed exactly once, as the last action of the callback;
and on a resolve failure nothing happens beyond the error log and the free —
the set is untouched. -/
theorem claim_C9 (ev : ResolveEvent) (l : List PendingTask) :
    ((resolve_callback ev l).2).count RAct.freeResolver = 1 ∧
    ((resolve_callback ev l).2).getLast? = some RAct.freeResolver ∧
    (ev = ResolveEvent.failure →
      (resolve_callback ev l).1 = l ∧
      (resolve_callback ev l).2 = [RAct.logError, RAct.freeResolver]) := by
  cases ev with
  | failure => exact ⟨rfl, rfl, fun _ => ⟨rfl, rfl⟩⟩
  | found name domain hostName addr port =>
    by_cases h : classify addr = Classification.eligible
    · refine ⟨?_, ?_, by simp⟩ <;> simp [resolve_callback, h, List.count_cons]
    · refine ⟨?_, ?_, by simp⟩ <;> simp [resolve_callback, h, List.count_cons]

/-- Claim C9 witness: on a concrete resolve failure the callback only logs
and frees the resolver, leaving the set unchanged. -/
theorem claim_C9_witness :
    (resolve_callback ResolveEvent.failure []).1 = ([] : List PendingTask) ∧
    (resolve_callback ResolveEvent.failure []).2 = [RAct.logError, RAct.freeResolver] :=
  (claim_C9 ResolveEvent.failure []).2.2 rfl

/-- Claim C10: after a `terminate` call made while running, the pending-task
set is empty and the run-state is false; every wait performed by the drain is
on a valid task, so entries with an invalid future are discarded without
waiting. -/
theorem claim_C10 (s : MDNSState) (h : s.running = true) :
    (terminate s).1.sources_res = [] ∧
    (terminate s).1.running = false ∧
    (∀ u, TAct.wait u ∈ (terminate s).2.2 → u.valid = true) := by
  refine ⟨?_, ?_, ?_⟩
  · simp [terminate, h, drain_eq]
  · simp [terminate, h]
  · intro u hu
    simp [terminate, h, drain_eq, teardownActions] at hu
    obtain ⟨t, ⟨-, htv⟩, rfl⟩ := hu
    simpa [markDone] using htv

/-- Claim C10 witness: `terminate` on a concrete running state holding one
invalid-future entry empties the set and clears the run-state. -/
theorem claim_C10_witness :
    (terminate ⟨true, some 1, some 2,
        [⟨false, false, "x", "local", "10.0.0.9", "554"⟩]⟩).1.sources_res = [] ∧
    (terminate ⟨true, some 1, some 2,
        [⟨false, false, "x", "local", "10.0.0.9", "554"⟩]⟩).1.running = false :=
  ⟨(claim_C10 ⟨true, some 1, some 2,
      [⟨false, false, "x", "local", "10.0.0.9", "554"⟩]⟩ rfl).1,
   (claim_C10 ⟨true, some 1, some 2,
      [⟨false, false, "x", "local", "10.0.0.9", "554"⟩]⟩ rfl).2.1⟩

end MDNS
